import Mathlib

/-!
# Verification of the forex arbitrage bot core

Shallow embedding of the opportunity-detection, risk-gating and
execution-coordination engine (`exchange_manager.py`, `risk_manager.py`,
`arbitrage_engine.py`, `config.py`).  Python floats are modelled as exact
rationals; calendar dates as integers (day numbers) with the same order;
the global configuration singleton is passed explicitly.
-/

namespace Hft

/-- A ticker as returned by `ExchangeManager.get_ticker`: top-of-book
`bid`/`ask`, `last` price and base `volume` (the `timestamp` field, never
read by the detection pipeline, is elided). -/
structure Ticker where
  bid : ℚ
  ask : ℚ
  last : ℚ
  volume : ℚ
  deriving DecidableEq, Repr

/-- A per-exchange entry of the dictionary built by
`ExchangeManager.get_best_prices`: exactly the keys `bid`, `ask`,
`spread`, `spread_percentage` — note that no `volume` key is stored. -/
structure BestPrice where
  bid : ℚ
  ask : ℚ
  spread : ℚ
  spread_percentage : ℚ
  deriving DecidableEq, Repr

/-- The entry `get_best_prices` builds from one ticker. -/
def toBestPrice (t : Ticker) : BestPrice :=
  { bid := t.bid
    ask := t.ask
    spread := t.ask - t.bid
    spread_percentage := (t.ask - t.bid) / t.bid * 100 }

/-- `ExchangeManager.get_best_prices`: map every exchange's ticker to its
best-price entry (exchanges whose ticker fetch failed are absent from the
input snapshot, as in the Python loop). -/
def get_best_prices (tickers : List (String × Ticker)) : List (String × BestPrice) :=
  tickers.map (fun p => (p.1, toBestPrice p.2))

/-- Python `price.get('volume', default)` on a best-price dictionary: the
dictionary holds only `bid`, `ask`, `spread` and `spread_percentage`, so
the lookup always falls back to the default. -/
def bestPriceGetVolume (_p : BestPrice) (default : ℚ) : ℚ := default

/-- An arbitrage opportunity dictionary as built by
`ExchangeManager.find_arbitrage_opportunities`. -/
structure Opportunity where
  symbol : String
  buy_exchange : String
  sell_exchange : String
  buy_price : ℚ
  sell_price : ℚ
  profit : ℚ
  profit_percentage : ℚ
  volume : ℚ
  deriving DecidableEq, Repr

/-- The opportunity record emitted for a profitable direction: buy at
`b`'s ask, sell at `s`'s bid.  `p1` is the loop's `price1` dictionary
(always the earlier exchange of the pair in the Python code); the volume
is `min(price1.get('volume', 0), price2.get('volume', 0))`. -/
def mkOpportunity (sym : String) (b s : String × BestPrice) (p1 p2 : BestPrice) :
    Opportunity :=
  { symbol := sym
    buy_exchange := b.1
    sell_exchange := s.1
    buy_price := b.2.ask
    sell_price := s.2.bid
    profit := s.2.bid - b.2.ask
    profit_percentage := (s.2.bid - b.2.ask) / b.2.ask * 100
    volume := min (bestPriceGetVolume p1 0) (bestPriceGetVolume p2 0) }

/-- One inner-loop iteration of `find_arbitrage_opportunities` for the
ordered pair `(e1, e2)` (`e1` before `e2` in the exchange list): check the
buy-`e1`/sell-`e2` direction, then the buy-`e2`/sell-`e1` direction; each
direction is emitted when its ask is below the other's bid and the profit
percentage reaches `min_profit_threshold * 100`. -/
def checkPair (sym : String) (thr : ℚ) (e1 e2 : String × BestPrice) :
    List Opportunity :=
  (if e1.2.ask < e2.2.bid ∧ (e2.2.bid - e1.2.ask) / e1.2.ask * 100 ≥ thr * 100
    then [mkOpportunity sym e1 e2 e1.2 e2.2] else []) ++
  (if e2.2.ask < e1.2.bid ∧ (e1.2.bid - e2.2.ask) / e2.2.ask * 100 ≥ thr * 100
    then [mkOpportunity sym e2 e1 e1.2 e2.2] else [])

/-- The double loop `for i in range(n): for j in range(i+1, n)` of
`find_arbitrage_opportunities`: the head exchange is paired with every
later exchange, then the tail is processed. -/
def oppsFor (sym : String) (thr : ℚ) : List (String × BestPrice) → List Opportunity
  | [] => []
  | x :: xs => (xs.flatMap (checkPair sym thr x)) ++ oppsFor sym thr xs

/-- `ExchangeManager.find_arbitrage_opportunities`: build the best-price
snapshot, return no opportunities when fewer than two exchanges answered,
otherwise scan every exchange pair in both directions. -/
def find_arbitrage_opportunities (sym : String) (thr : ℚ)
    (tickers : List (String × Ticker)) : List Opportunity :=
  let prices := get_best_prices tickers
  if prices.length < 2 then [] else oppsFor sym thr prices

/-! ## Configuration (`config.py`) -/

/-- The configuration fields read by the risk manager and the detector
(`ArbitrageConfig` together with the top-level risk settings of
`Config`). -/
structure Config where
  min_profit_threshold : ℚ
  max_position_size : ℚ
  max_slippage : ℚ
  risk_per_trade : ℚ
  max_daily_loss : ℚ
  max_concurrent_trades : ℕ
  stop_loss_percentage : ℚ
  deriving Repr

/-- The default values of `config.py`: threshold 0.001, position cap
1000 USD, slippage 0.0005, risk 2% per trade, daily loss cap 100 USD,
at most 5 concurrent trades, 2% stop loss. -/
def config : Config :=
  { min_profit_threshold := 1/1000
    max_position_size := 1000
    max_slippage := 1/2000
    risk_per_trade := 1/50
    max_daily_loss := 100
    max_concurrent_trades := 5
    stop_loss_percentage := 1/50 }

/-! ## Risk manager (`risk_manager.py`)

`datetime.now().date()` is passed in explicitly as an integer day number
`today`; `>` on dates is `<` on day numbers reversed. -/

/-- One entry of `RiskManager.active_trades`, as appended by
`add_active_trade` (the wall-clock `start_time` is elided; the
dictionary-valued `trade_info` fields default to the caller's values). -/
structure ActiveTrade where
  trade_id : String
  symbol : String
  buy_exchange : String
  sell_exchange : String
  position_size : ℚ
  expected_profit : ℚ
  deriving DecidableEq, Repr

/-- The mutable state of `RiskManager`. -/
structure RiskState where
  daily_loss : ℚ
  daily_trades : ℕ
  active_trades : List ActiveTrade
  max_drawdown : ℚ
  peak_balance : ℚ
  current_balance : ℚ
  last_reset : ℤ
  deriving DecidableEq, Repr

/-- `RiskManager._reset_daily_counters`: zero the daily counters and
advance `last_reset` when `today > self.last_reset`, otherwise leave the
state untouched. -/
def reset_daily_counters (today : ℤ) (s : RiskState) : RiskState :=
  if s.last_reset < today then
    { s with daily_loss := 0, daily_trades := 0, last_reset := today }
  else s

/-- `RiskManager.can_execute_trade`: first reset daily counters, then the
ordered rejection checks — daily loss cap, concurrency cap, 10% drawdown
cap, profit floor (`min_profit_threshold * 100`), 5% sanity ceiling.
Returns the decision together with the (possibly reset) state, since the
Python method mutates `self`. -/
def can_execute_trade (cfg : Config) (today : ℤ) (s : RiskState)
    (profit_percentage : ℚ) : Bool × RiskState :=
  let s := reset_daily_counters today s
  if s.daily_loss ≥ cfg.max_daily_loss then (false, s)
  else if s.active_trades.length ≥ cfg.max_concurrent_trades then (false, s)
  else if s.max_drawdown ≥ 1/10 then (false, s)
  else if profit_percentage < cfg.min_profit_threshold * 100 then (false, s)
  else if profit_percentage > 5 then (false, s)
  else (true, s)

/-- Python's `round(x, 2)` on the exact value: round `100 * x` to the
nearest integer and divide back.  (Mathlib's `round` breaks ties upward
where Python breaks them to even; no claim below evaluates at a tie.) -/
def round2 (x : ℚ) : ℚ := (round (x * 100) : ℤ) / 100

/-- `RiskManager._get_available_balance`: a fixed 10000 USD stub. -/
def get_available_balance : ℚ := 10000

/-- `RiskManager.calculate_position_size`: risk amount from the balance,
sized against an assumed 2% loss, capped by `max_position_size` and by
80% of the balance, then rounded to cents.  The `opportunity` argument is
never read by the Python method, so it is omitted. -/
def calculate_position_size (cfg : Config) (available_balance : ℚ) : ℚ :=
  let risk_amount := available_balance * cfg.risk_per_trade
  let position_size := risk_amount / (2/100)
  let position_size := min position_size cfg.max_position_size
  let position_size := min position_size (available_balance * (80/100))
  round2 position_size

/-- `RiskManager.record_trade`: bump the daily trade count; on profit,
grow the balance and the peak; on a non-positive profit, add the absolute
loss to `daily_loss`, shrink the balance and recompute the drawdown
maximum when the peak is positive; finally drop the trade id from the
active list (Python's `if trade_id:` also skips the empty string). -/
def record_trade (s : RiskState) (profit : ℚ) (trade_id : Option String) :
    RiskState :=
  let s := { s with daily_trades := s.daily_trades + 1 }
  let s :=
    if 0 < profit then
      let cb := s.current_balance + profit
      { s with current_balance := cb, peak_balance := max s.peak_balance cb }
    else
      let loss := |profit|
      let s := { s with daily_loss := s.daily_loss + loss, current_balance := s.current_balance - loss }
      if 0 < s.peak_balance then
        { s with max_drawdown := max s.max_drawdown ((s.peak_balance - s.current_balance) / s.peak_balance) }
      else s
  match trade_id with
  | some tid =>
      if tid = "" then s
      else { s with active_trades := s.active_trades.filter (fun t => t.trade_id ≠ tid) }
  | none => s

/-- `RiskManager.add_active_trade`: append the trade record. -/
def add_active_trade (s : RiskState) (t : ActiveTrade) : RiskState :=
  { s with active_trades := s.active_trades ++ [t] }

/-- `RiskManager.update_balance`. -/
def update_balance (s : RiskState) (new_balance : ℚ) : RiskState :=
  { s with current_balance := new_balance,
           peak_balance := max s.peak_balance new_balance }

/-- The operations that mutate the risk state (each method of
`RiskManager` that writes a field), with the current date supplied to the
ones that consult the clock. -/
inductive RiskOp
  | canExecute (today : ℤ) (profit_percentage : ℚ)
  | recordTrade (profit : ℚ) (trade_id : Option String)
  | addActive (t : ActiveTrade)
  | updateBalance (b : ℚ)
  | resetCounters (today : ℤ)
  deriving Repr

/-- The state after one risk-manager operation. -/
def RiskOp.step (cfg : Config) (s : RiskState) : RiskOp → RiskState
  | .canExecute today p => (can_execute_trade cfg today s p).2
  | .recordTrade profit tid => record_trade s profit tid
  | .addActive t => add_active_trade s t
  | .updateBalance b => update_balance s b
  | .resetCounters today => reset_daily_counters today s

/-- An operation stays within the calendar day of the state: any clock it
reads shows the state's `last_reset` date. -/
def RiskOp.sameDay (s : RiskState) : RiskOp → Prop
  | .canExecute today _ => today = s.last_reset
  | .resetCounters today => today = s.last_reset
  | _ => True

instance (s : RiskState) (op : RiskOp) : Decidable (op.sameDay s) := by
  cases op <;> simp [RiskOp.sameDay] <;> infer_instance

/-! ## Execution coordinator (`ArbitrageEngine._execute_arbitrage`)

The venue's answers to the coordinator's calls are supplied by an oracle
`ExecEnv`; the coordinator's externally visible behaviour is the ordered
trace of venue calls it issues, the outcome it reaches (one constructor
per `return` site of the Python method), and the risk-manager state it
leaves behind. -/

/-- The venue calls `_execute_arbitrage` can issue through
`ExchangeManager`. -/
inductive VenueCall
  | placeOrder (exchange side : String) (amount : ℚ)
  | getOrderStatus (exchange order_id : String)
  | cancelOrder (exchange order_id : String)
  deriving DecidableEq, Repr

/-- An order-status answer: `{status, price}` as read by the
coordinator. -/
structure OrderStatus where
  status : String
  price : ℚ
  deriving DecidableEq, Repr

/-- Oracle for one execution: the id returned by each order placement
(`none` models `place_order` returning `None`), the single status poll
for each leg, and the fee `calculate_fees` reports for each leg. -/
structure ExecEnv where
  buy_order : Option String
  buy_status : Option OrderStatus
  sell_order : Option String
  sell_status : Option OrderStatus
  buy_fee : ℚ
  sell_fee : ℚ
  deriving DecidableEq, Repr

/-- The `return` sites of `_execute_arbitrage`, in source order: buy
placement returned `None`; buy order not reported `closed` (after which
the buy order is cancelled); sell placement returned `None`; sell order
not reported `closed` (after which the sell order is cancelled); both
legs closed with the given net profit. -/
inductive ExecOutcome
  | buyPlacementFailed
  | buyNotFilled
  | sellPlacementFailed
  | sellNotFilled
  | completed (net_profit : ℚ)
  deriving DecidableEq, Repr

/-- What one run of `_execute_arbitrage` did. -/
structure ExecResult where
  outcome : ExecOutcome
  calls : List VenueCall
  risk : RiskState
  deriving Repr

/-- Python's `status and status['status'] != 'closed'` test, negated: the
poll answered and reported the order `closed`. -/
def statusClosed : Option OrderStatus → Bool
  | none => false
  | some st => st.status == "closed"

/-- `ArbitrageEngine._execute_arbitrage`, driven by the oracle `env`.
The method reads the risk manager only through the pure
`calculate_position_size`; it never writes any `RiskManager` field (in
particular it never calls `add_active_trade`), so the risk state is
returned unchanged on every path. -/
def execute_arbitrage (cfg : Config) (env : ExecEnv) (opp : Opportunity)
    (risk : RiskState) : ExecResult :=
  let position_size := calculate_position_size cfg get_available_balance
  let calls := [VenueCall.placeOrder opp.buy_exchange "buy" position_size]
  match env.buy_order with
  | none => ⟨.buyPlacementFailed, calls, risk⟩
  | some buy_id =>
    let calls := calls ++ [VenueCall.getOrderStatus opp.buy_exchange buy_id]
    if !statusClosed env.buy_status then
      ⟨.buyNotFilled, calls ++ [VenueCall.cancelOrder opp.buy_exchange buy_id], risk⟩
    else
      let calls := calls ++ [VenueCall.placeOrder opp.sell_exchange "sell" position_size]
      match env.sell_order with
      | none => ⟨.sellPlacementFailed, calls, risk⟩
      | some sell_id =>
        let calls := calls ++ [VenueCall.getOrderStatus opp.sell_exchange sell_id]
        if !statusClosed env.sell_status then
          ⟨.sellNotFilled, calls ++ [VenueCall.cancelOrder opp.sell_exchange sell_id], risk⟩
        else
          let actual_buy_price := (env.buy_status.map OrderStatus.price).getD 0
          let actual_sell_price := (env.sell_status.map OrderStatus.price).getD 0
          let actual_profit := (actual_sell_price - actual_buy_price) * position_size
          let net_profit := actual_profit - (env.buy_fee + env.sell_fee)
          ⟨.completed net_profit, calls, risk⟩

/-- The buy-leg status poll reported a filled (`closed`) order. -/
def buyFilled (env : ExecEnv) : Prop :=
  ∃ st, env.buy_status = some st ∧ st.status = "closed"

instance (env : ExecEnv) : Decidable (buyFilled env) := by
  unfold buyFilled
  cases env.buy_status <;> simp <;> infer_instance

/-! ## Detector lemmas -/

/-- In an association list with pairwise-distinct keys, a key determines
its value. -/
theorem nodup_keys_inj {α β : Type} {l : List (α × β)}
    (h : (l.map Prod.fst).Nodup) {a : α} {b₁ b₂ : β}
    (h₁ : (a, b₁) ∈ l) (h₂ : (a, b₂) ∈ l) : b₁ = b₂ := by
  induction l with
  | nil => simp at h₁
  | cons x xs ih =>
    rw [List.map_cons, List.nodup_cons] at h
    rcases List.mem_cons.mp h₁ with hx₁ | hm₁ <;>
      rcases List.mem_cons.mp h₂ with hx₂ | hm₂
    · rw [← hx₂] at hx₁; injection hx₁
    · have ha : a ∈ xs.map Prod.fst := List.mem_map_of_mem Prod.fst hm₂
      exfalso
      apply h.1
      rw [← hx₁]
      exact ha
    · have ha : a ∈ xs.map Prod.fst := List.mem_map_of_mem Prod.fst hm₁
      exfalso
      apply h.1
      rw [← hx₂]
      exact ha
    · exact ih h.2 hm₁ hm₂

/-- A list holding two distinct elements has length at least two. -/
theorem two_le_length_of_mem_ne {α : Type} {l : List α} {a b : α}
    (ha : a ∈ l) (hb : b ∈ l) (hne : a ≠ b) : 2 ≤ l.length := by
  match l with
  | [] => simp at ha
  | [x] =>
    simp only [List.mem_singleton] at ha hb
    exact absurd (ha.trans hb.symm) hne
  | x :: y :: ys => simp only [List.length_cons]; omega

/-- Membership in the opportunities emitted for one exchange pair. -/
theorem mem_checkPair {sym : String} {thr : ℚ} {e1 e2 : String × BestPrice}
    {o : Opportunity} :
    o ∈ checkPair sym thr e1 e2 ↔
      (e1.2.ask < e2.2.bid ∧ (e2.2.bid - e1.2.ask) / e1.2.ask * 100 ≥ thr * 100 ∧
        o = mkOpportunity sym e1 e2 e1.2 e2.2) ∨
      (e2.2.ask < e1.2.bid ∧ (e1.2.bid - e2.2.ask) / e2.2.ask * 100 ≥ thr * 100 ∧
        o = mkOpportunity sym e2 e1 e1.2 e2.2) := by
  unfold checkPair
  split_ifs with h1 h2 h2 <;> simp_all

/-- Every emitted opportunity comes from some pair of snapshot entries. -/
theorem oppsFor_shape {sym : String} {thr : ℚ} :
    ∀ {ps : List (String × BestPrice)} {o : Opportunity},
      o ∈ oppsFor sym thr ps →
      ∃ p ∈ ps, ∃ q ∈ ps, o ∈ checkPair sym thr p q := by
  intro ps
  induction ps with
  | nil => intro o ho; simp [oppsFor] at ho
  | cons x xs ih =>
    intro o ho
    simp only [oppsFor, List.mem_append, List.mem_flatMap] at ho
    rcases ho with ⟨y, hy, hcy⟩ | ho
    · exact ⟨x, List.mem_cons_self x xs, y, List.mem_cons_of_mem x hy, hcy⟩
    · obtain ⟨p, hp, q, hq, h⟩ := ih ho
      exact ⟨p, List.mem_cons_of_mem x hp, q, List.mem_cons_of_mem x hq, h⟩

/-- Every emitted opportunity buys strictly below where it sells. -/
theorem buy_lt_sell_of_mem_checkPair {sym : String} {thr : ℚ}
    {e1 e2 : String × BestPrice} {o : Opportunity}
    (h : o ∈ checkPair sym thr e1 e2) : o.buy_price < o.sell_price := by
  rcases mem_checkPair.mp h with ⟨h1, _, rfl⟩ | ⟨h1, _, rfl⟩ <;>
    simpa [mkOpportunity] using h1

/-- A profitable direction between two snapshot entries is emitted. -/
theorem oppsFor_emits {sym : String} {thr : ℚ} {X Y : String}
    {bX bY : BestPrice} :
    ∀ {ps : List (String × BestPrice)}, (X, bX) ∈ ps → (Y, bY) ∈ ps → X ≠ Y →
      bX.ask < bY.bid → (bY.bid - bX.ask) / bX.ask * 100 ≥ thr * 100 →
      ∃ o ∈ oppsFor sym thr ps, o.buy_exchange = X ∧ o.sell_exchange = Y := by
  intro ps
  induction ps with
  | nil => intro hX; simp at hX
  | cons x xs ih =>
    intro hX hY hne hask hthr
    rcases List.mem_cons.mp hX with hXx | hXxs
    · rcases List.mem_cons.mp hY with hYx | hYxs
      · injection hXx.trans hYx.symm with h1 _
        exact absurd h1 hne
      · refine ⟨mkOpportunity sym (X, bX) (Y, bY) bX bY, ?_, by simp [mkOpportunity], by simp [mkOpportunity]⟩
        simp only [oppsFor, List.mem_append, List.mem_flatMap]
        refine Or.inl ⟨(Y, bY), hYxs, ?_⟩
        rw [← hXx, mem_checkPair]
        exact Or.inl ⟨hask, hthr, rfl⟩
    · rcases List.mem_cons.mp hY with hYx | hYxs
      · refine ⟨mkOpportunity sym (X, bX) (Y, bY) bY bX, ?_, by simp [mkOpportunity], by simp [mkOpportunity]⟩
        simp only [oppsFor, List.mem_append, List.mem_flatMap]
        refine Or.inl ⟨(X, bX), hXxs, ?_⟩
        rw [← hYx, mem_checkPair]
        exact Or.inr ⟨hask, hthr, rfl⟩
      · obtain ⟨o, ho, hb, hs⟩ := ih hXxs hYxs hne hask hthr
        refine ⟨o, ?_, hb, hs⟩
        simp only [oppsFor, List.mem_append]
        exact Or.inr ho

/-- Under distinct keys, an emitted opportunity buying on `X` and selling
on `Y` certifies the profitable direction and carries exactly `X`'s ask,
`Y`'s bid and the spread percentage built from them. -/
theorem oppsFor_char {sym : String} {thr : ℚ} {ps : List (String × BestPrice)}
    {X Y : String} {bX bY : BestPrice} {o : Opportunity}
    (hnd : (ps.map Prod.fst).Nodup) (hX : (X, bX) ∈ ps) (hY : (Y, bY) ∈ ps)
    (ho : o ∈ oppsFor sym thr ps) (hbuy : o.buy_exchange = X)
    (hsell : o.sell_exchange = Y) :
    bX.ask < bY.bid ∧ (bY.bid - bX.ask) / bX.ask * 100 ≥ thr * 100 ∧
      o.buy_price = bX.ask ∧ o.sell_price = bY.bid ∧
      o.profit_percentage = (bY.bid - bX.ask) / bX.ask * 100 := by
  obtain ⟨p, hp, q, hq, hc⟩ := oppsFor_shape ho
  rcases mem_checkPair.mp hc with ⟨h1, h2, rfl⟩ | ⟨h1, h2, rfl⟩
  · simp only [mkOpportunity] at hbuy hsell
    have hpX : p = (X, bX) := by
      have : (p.1, p.2) ∈ ps := by simpa using hp
      rw [hbuy] at this
      exact Prod.ext hbuy (nodup_keys_inj hnd this hX)
    have hqY : q = (Y, bY) := by
      have : (q.1, q.2) ∈ ps := by simpa using hq
      rw [hsell] at this
      exact Prod.ext hsell (nodup_keys_inj hnd this hY)
    subst hpX; subst hqY
    exact ⟨h1, h2, rfl, rfl, rfl⟩
  · simp only [mkOpportunity] at hbuy hsell
    have hqX : q = (X, bX) := by
      have : (q.1, q.2) ∈ ps := by simpa using hq
      rw [hbuy] at this
      exact Prod.ext hbuy (nodup_keys_inj hnd this hX)
    have hpY : p = (Y, bY) := by
      have : (p.1, p.2) ∈ ps := by simpa using hp
      rw [hsell] at this
      exact Prod.ext hsell (nodup_keys_inj hnd this hY)
    subst hqX; subst hpY
    exact ⟨h1, h2, rfl, rfl, rfl⟩

/-- `get_best_prices` keeps the exchange keys. -/
theorem get_best_prices_keys (tickers : List (String × Ticker)) :
    (get_best_prices tickers).map Prod.fst = tickers.map Prod.fst := by
  induction tickers with
  | nil => rfl
  | cons x xs ih => simp_all [get_best_prices]

/-- `get_best_prices` maps each snapshot entry pointwise. -/
theorem mem_get_best_prices {tickers : List (String × Ticker)} {X : String}
    {q : Ticker} (h : (X, q) ∈ tickers) :
    (X, toBestPrice q) ∈ get_best_prices tickers :=
  List.mem_map_of_mem (fun p => (p.1, toBestPrice p.2)) h

/-- With at least two quoted exchanges the guard of
`find_arbitrage_opportunities` is inactive. -/
theorem find_arbitrage_eq_oppsFor {sym : String} {thr : ℚ}
    {tickers : List (String × Ticker)} (h : 2 ≤ tickers.length) :
    find_arbitrage_opportunities sym thr tickers =
      oppsFor sym thr (get_best_prices tickers) := by
  unfold find_arbitrage_opportunities
  have hl : ¬ ((get_best_prices tickers).length < 2) := by
    simp only [get_best_prices, List.length_map]
    omega
  rw [if_neg hl]

/-! ## Claim C1 -/

/-- C1.  For a snapshot of per-venue quotes with pairwise-distinct venue
names and any two distinct venues `X`, `Y` quoted in it, the detector
emits an opportunity buying on `X` and selling on `Y` if and only if
`X.ask < Y.bid` and `(Y.bid - X.ask)/X.ask*100 ≥ min_profit_threshold*100`;
any such opportunity carries exactly `X`'s ask, `Y`'s bid and the spread
percentage computed from them; and every emitted opportunity buys
strictly below where it sells.  Both directions of a pair are covered by
instantiating `(X, Y)` either way. -/
theorem detector_emission_iff (sym : String) (thr : ℚ)
    (tickers : List (String × Ticker)) (X Y : String) (qX qY : Ticker)
    (hnd : (tickers.map Prod.fst).Nodup)
    (hX : (X, qX) ∈ tickers) (hY : (Y, qY) ∈ tickers) (hne : X ≠ Y) :
    ((∃ o ∈ find_arbitrage_opportunities sym thr tickers,
        o.buy_exchange = X ∧ o.sell_exchange = Y) ↔
      (qX.ask < qY.bid ∧ (qY.bid - qX.ask) / qX.ask * 100 ≥ thr * 100)) ∧
    (∀ o ∈ find_arbitrage_opportunities sym thr tickers,
        o.buy_exchange = X → o.sell_exchange = Y →
        o.buy_price = qX.ask ∧ o.sell_price = qY.bid ∧
        o.profit_percentage = (qY.bid - qX.ask) / qX.ask * 100) ∧
    (∀ o ∈ find_arbitrage_opportunities sym thr tickers,
        o.buy_price < o.sell_price) := by
  have hlen : 2 ≤ tickers.length := two_le_length_of_mem_ne hX hY
    (fun h => hne (by injection h))
  rw [find_arbitrage_eq_oppsFor hlen]
  have hnd' : ((get_best_prices tickers).map Prod.fst).Nodup := by
    rw [get_best_prices_keys]; exact hnd
  have hX' := mem_get_best_prices hX
  have hY' := mem_get_best_prices hY
  refine ⟨⟨?_, ?_⟩, ?_, ?_⟩
  · rintro ⟨o, ho, hb, hs⟩
    have h := oppsFor_char hnd' hX' hY' ho hb hs
    exact ⟨h.1, h.2.1⟩
  · rintro ⟨hask, hthr⟩
    exact oppsFor_emits hX' hY' hne hask hthr
  · intro o ho hb hs
    have h := oppsFor_char hnd' hX' hY' ho hb hs
    exact ⟨h.2.2.1, h.2.2.2.1, h.2.2.2.2⟩
  · intro o ho
    obtain ⟨p, _, q, _, hc⟩ := oppsFor_shape ho
    exact buy_lt_sell_of_mem_checkPair hc

/-- Venue `A` of the C1 witness snapshot: bid 99, ask 100, volume 3. -/
def wTickerA : Ticker := { bid := 99, ask := 100, last := 99, volume := 3 }

/-- Venue `B` of the C1 witness snapshot: bid 102, ask 103, volume 4. -/
def wTickerB : Ticker := { bid := 102, ask := 103, last := 102, volume := 4 }

/-- The C1 witness snapshot. -/
def wSnapshot : List (String × Ticker) := [("A", wTickerA), ("B", wTickerB)]

/-- C1 witness: on a concrete two-venue snapshot where `A.ask = 100 <
102 = B.bid` and the 2% spread clears the 0.1% threshold, the detector
emits a buy-`A`/sell-`B` opportunity. -/
theorem detector_emission_iff_witness :
    ∃ o ∈ find_arbitrage_opportunities "EUR/USD" config.min_profit_threshold wSnapshot,
      o.buy_exchange = "A" ∧ o.sell_exchange = "B" :=
  (detector_emission_iff "EUR/USD" config.min_profit_threshold wSnapshot
      "A" "B" wTickerA wTickerB
      (by simp [wSnapshot]) (by simp [wSnapshot]) (by simp [wSnapshot])
      (by simp)).1.mpr
    (by constructor <;> norm_num [wTickerA, wTickerB, config])

/-! ## Risk-manager lemmas -/

/-- The daily reset does not touch the active-trade list. -/
theorem reset_active_trades (today : ℤ) (s : RiskState) :
    (reset_daily_counters today s).active_trades = s.active_trades := by
  unfold reset_daily_counters
  split <;> rfl

/-- The daily reset does not touch the drawdown maximum. -/
theorem reset_max_drawdown (today : ℤ) (s : RiskState) :
    (reset_daily_counters today s).max_drawdown = s.max_drawdown := by
  unfold reset_daily_counters
  split <;> rfl

/-- On the state's own date the daily reset is the identity. -/
theorem reset_same_day {today : ℤ} {s : RiskState} (h : today = s.last_reset) :
    reset_daily_counters today s = s := by
  unfold reset_daily_counters
  rw [if_neg]
  omega

/-- The state `can_execute_trade` leaves behind is exactly the state
after the daily reset: none of its rejection branches mutates further. -/
theorem can_execute_snd (cfg : Config) (today : ℤ) (s : RiskState) (p : ℚ) :
    (can_execute_trade cfg today s p).2 = reset_daily_counters today s := by
  simp only [can_execute_trade]
  split_ifs <;> rfl

/-! ## Claim C2 -/

/-- C2.  Whenever the active-trade list has reached
`max_concurrent_trades`, `can_execute_trade` answers `false`, whatever
the opportunity's profit percentage and the rest of the state. -/
theorem can_execute_concurrency_cap (cfg : Config) (today : ℤ) (s : RiskState)
    (p : ℚ) (h : cfg.max_concurrent_trades ≤ s.active_trades.length) :
    (can_execute_trade cfg today s p).1 = false := by
  have hact := reset_active_trades today s
  simp only [can_execute_trade]
  split_ifs with h1 h2 h3 h4 h5 <;> try rfl
  exfalso
  apply h2
  rw [hact]
  exact h

/-- An arbitrary active-trade record used by concrete states below. -/
def dummyTrade : ActiveTrade :=
  { trade_id := "t1", symbol := "EUR/USD", buy_exchange := "binance",
    sell_exchange := "kraken", position_size := 100, expected_profit := 1 }

/-- A risk state already holding five active trades (the configured
concurrency cap). -/
def stFive : RiskState :=
  { daily_loss := 0, daily_trades := 0,
    active_trades := List.replicate 5 dummyTrade,
    max_drawdown := 0, peak_balance := 0, current_balance := 0,
    last_reset := 0 }

/-- C2 witness: with five active trades and the default configuration
(cap 5), a 2%-profit opportunity is rejected. -/
theorem can_execute_concurrency_cap_witness :
    (can_execute_trade config 0 stFive 2).1 = false :=
  can_execute_concurrency_cap config 0 stFive 2
    (by simp [config, stFive])

/-! ## Claim C10 -/

/-- The drawdown maximum `record_trade` leaves behind, by cases on the
sign of the profit and the positivity of the peak. -/
theorem record_trade_max_drawdown (s : RiskState) (profit : ℚ)
    (tid : Option String) :
    (record_trade s profit tid).max_drawdown =
      if 0 < profit then s.max_drawdown
      else if 0 < s.peak_balance then
        max s.max_drawdown
          ((s.peak_balance - (s.current_balance - |profit|)) / s.peak_balance)
      else s.max_drawdown := by
  rcases tid with _ | t <;> simp only [record_trade] <;> split_ifs <;> rfl

/-- The daily loss `record_trade` leaves behind: unchanged on profit,
increased by the absolute loss otherwise. -/
theorem record_trade_daily_loss (s : RiskState) (profit : ℚ)
    (tid : Option String) :
    (record_trade s profit tid).daily_loss =
      if 0 < profit then s.daily_loss else s.daily_loss + |profit| := by
  rcases tid with _ | t <;> simp only [record_trade] <;> split_ifs <;> rfl

/-- `record_trade` only ever raises the drawdown maximum (it is updated
through `max`). -/
theorem record_trade_drawdown_mono (s : RiskState) (profit : ℚ)
    (tid : Option String) :
    s.max_drawdown ≤ (record_trade s profit tid).max_drawdown := by
  rw [record_trade_max_drawdown]
  split_ifs <;> simp [le_max_left]

/-- No risk-manager operation lowers the drawdown maximum. -/
theorem step_drawdown_mono (cfg : Config) (s : RiskState) (op : RiskOp) :
    s.max_drawdown ≤ (op.step cfg s).max_drawdown := by
  cases op with
  | canExecute today p =>
      rw [RiskOp.step, can_execute_snd, reset_max_drawdown]
  | recordTrade profit tid => exact record_trade_drawdown_mono s profit tid
  | addActive t => simp [RiskOp.step, add_active_trade]
  | updateBalance b => simp [RiskOp.step, update_balance]
  | resetCounters today => rw [RiskOp.step, reset_max_drawdown]

/-- The drawdown maximum is monotone along any sequence of risk-manager
operations. -/
theorem foldl_drawdown_mono (cfg : Config) :
    ∀ (ops : List RiskOp) (s : RiskState),
      s.max_drawdown ≤ (ops.foldl (fun st op => op.step cfg st) s).max_drawdown := by
  intro ops
  induction ops with
  | nil => intro s; exact le_refl _
  | cons op ops ih =>
      intro s
      exact le_trans (step_drawdown_mono cfg s op) (ih (op.step cfg s))

/-- Once the drawdown maximum reaches 10%, `can_execute_trade` rejects. -/
theorem can_execute_drawdown_cap (cfg : Config) (today : ℤ) (s : RiskState)
    (p : ℚ) (h : 1/10 ≤ s.max_drawdown) :
    (can_execute_trade cfg today s p).1 = false := by
  have hdd := reset_max_drawdown today s
  simp only [can_execute_trade]
  split_ifs with h1 h2 h3 h4 h5 <;> try rfl
  exfalso
  apply h3
  rw [hdd]
  exact h

/-- C10.  `max_drawdown` never decreases over any sequence of
risk-manager operations — the daily rollover included — and once it
stands at the 10% limit, `can_execute_trade` answers `false` for every
opportunity and date from then on. -/
theorem drawdown_monotone_lockout (cfg : Config) (s : RiskState)
    (ops : List RiskOp) (today : ℤ) (p : ℚ) :
    s.max_drawdown ≤ (ops.foldl (fun st op => op.step cfg st) s).max_drawdown ∧
    (1/10 ≤ s.max_drawdown →
      (can_execute_trade cfg today
        (ops.foldl (fun st op => op.step cfg st) s) p).1 = false) :=
  ⟨foldl_drawdown_mono cfg ops s,
   fun h => can_execute_drawdown_cap cfg today _ p
     (le_trans h (foldl_drawdown_mono cfg ops s))⟩

/-- A risk state sitting exactly at the 10% drawdown limit. -/
def stDrawn : RiskState :=
  { daily_loss := 0, daily_trades := 0, active_trades := [],
    max_drawdown := 1/10, peak_balance := 100, current_balance := 90,
    last_reset := 0 }

/-- The operation sequence of the C10 witness: a winning trade, a balance
refresh, and a next-day risk check. -/
def opsDrawn : List RiskOp :=
  [RiskOp.recordTrade 5 (some "t1"), RiskOp.updateBalance 95,
   RiskOp.canExecute 1 2]

/-- C10 witness: from the 10%-drawdown state, after a profitable trade, a
balance update and a day rollover, a 2%-profit opportunity is still
rejected. -/
theorem drawdown_monotone_lockout_witness :
    (can_execute_trade config 2
      (opsDrawn.foldl (fun st op => op.step config st) stDrawn) 2).1 = false :=
  (drawdown_monotone_lockout config stDrawn opsDrawn 2 2).2
    (by norm_num [stDrawn])

/-! ## Claim C7 -/

/-- C7.  Within a single calendar day (every clock read shows the state's
own `last_reset` date), no risk-manager operation decreases
`daily_loss`: recording a profitable trade leaves it unchanged, recording
a losing trade adds exactly the absolute loss, and — starting from a
non-negative amount — it can only be `0` afterwards if it already was, so
it becomes `0` only on a day rollover. -/
theorem daily_loss_monotone_same_day (cfg : Config) (s : RiskState)
    (op : RiskOp) (hday : op.sameDay s) (h0 : 0 ≤ s.daily_loss) :
    s.daily_loss ≤ (op.step cfg s).daily_loss ∧
    (∀ profit tid, op = RiskOp.recordTrade profit tid →
      (0 < profit → (op.step cfg s).daily_loss = s.daily_loss) ∧
      (profit ≤ 0 →
        (op.step cfg s).daily_loss = s.daily_loss + |profit|)) ∧
    ((op.step cfg s).daily_loss = 0 → s.daily_loss = 0) := by
  cases op with
  | canExecute today p =>
      rw [RiskOp.sameDay] at hday
      have hss : (RiskOp.canExecute today p).step cfg s = s := by
        rw [RiskOp.step, can_execute_snd, reset_same_day hday]
      rw [hss]
      exact ⟨le_refl _, by intro profit tid h; exact absurd h (by simp),
        fun h => h⟩
  | recordTrade profit tid =>
      have hdl := record_trade_daily_loss s profit tid
      rw [RiskOp.step] at *
      refine ⟨?_, ?_, ?_⟩
      · rw [hdl]
        split_ifs
        · exact le_refl _
        · linarith [abs_nonneg profit]
      · intro profit' tid' h
        injection h with h1 h2
        subst h1; subst h2
        constructor
        · intro hp
          rw [hdl, if_pos hp]
        · intro hp
          rw [hdl, if_neg (by linarith)]
      · rw [hdl]
        split_ifs
        · exact fun h => h
        · intro h
          have := abs_nonneg profit
          linarith
  | addActive t =>
      refine ⟨le_refl _, by intro profit tid h; exact absurd h (by simp),
        fun h => h⟩
  | updateBalance b =>
      refine ⟨le_refl _, by intro profit tid h; exact absurd h (by simp),
        fun h => h⟩
  | resetCounters today =>
      rw [RiskOp.sameDay] at hday
      have hss : (RiskOp.resetCounters today).step cfg s = s := by
        rw [RiskOp.step, reset_same_day hday]
      rw [hss]
      exact ⟨le_refl _, by intro profit tid h; exact absurd h (by simp),
        fun h => h⟩

/-- A mid-day risk state carrying an accumulated loss of 7 USD. -/
def stLoss : RiskState :=
  { daily_loss := 7, daily_trades := 2, active_trades := [],
    max_drawdown := 0, peak_balance := 100, current_balance := 93,
    last_reset := 0 }

/-- C7 witness: recording a 3-USD losing trade on the state's own day
does not decrease the accumulated daily loss. -/
theorem daily_loss_monotone_same_day_witness :
    stLoss.daily_loss ≤
      ((RiskOp.recordTrade (-3) (some "t1")).step config stLoss).daily_loss :=
  (daily_loss_monotone_same_day config stLoss (RiskOp.recordTrade (-3) (some "t1"))
    (by exact trivial) (by norm_num [stLoss])).1

/-! ## Claim C6 -/

/-- A risk state whose `last_reset` lies on day 1, with non-zero daily
counters. -/
def stStale : RiskState :=
  { daily_loss := 5, daily_trades := 3, active_trades := [],
    max_drawdown := 0, peak_balance := 0, current_balance := 0,
    last_reset := 1 }

/-- C6 counterexample: a risk check on day 0 — a calendar date that
differs from `last_reset = 1` — leaves both daily counters untouched,
because the code resets only when `today > last_reset`, not whenever the
dates differ. -/
theorem daily_reset_counterexample :
    (0 : ℤ) ≠ stStale.last_reset ∧
    (can_execute_trade config 0 stStale 2).2.daily_loss = 5 ∧
    (can_execute_trade config 0 stStale 2).2.daily_trades = 3 := by
  refine ⟨by norm_num [stStale], ?_, ?_⟩ <;>
    rw [can_execute_snd] <;>
    rw [reset_daily_counters, if_neg (by norm_num [stStale])] <;>
    rfl

/-- C6 amended.  A risk check resets the daily counters if and only if
the current date is strictly later than `lastResetDate`: in that case
both counters become zero and `lastResetDate` advances to the current
date, and otherwise the whole state is left exactly as it was. -/
theorem daily_reset_iff_later_date (cfg : Config) (today : ℤ) (s : RiskState)
    (p : ℚ) :
    (s.last_reset < today →
      (can_execute_trade cfg today s p).2.daily_loss = 0 ∧
      (can_execute_trade cfg today s p).2.daily_trades = 0 ∧
      (can_execute_trade cfg today s p).2.last_reset = today) ∧
    (¬ s.last_reset < today → (can_execute_trade cfg today s p).2 = s) := by
  rw [can_execute_snd, reset_daily_counters]
  split_ifs with h
  · exact ⟨fun _ => ⟨rfl, rfl, rfl⟩, fun hn => absurd h hn⟩
  · exact ⟨fun hlt => absurd hlt h, fun _ => rfl⟩

/-- C6 witness: checking on day 2 from a day-0 state does reset both
counters and advances the reset date. -/
theorem daily_reset_iff_later_date_witness :
    (can_execute_trade config 2 stLoss 2).2.daily_loss = 0 ∧
    (can_execute_trade config 2 stLoss 2).2.daily_trades = 0 ∧
    (can_execute_trade config 2 stLoss 2).2.last_reset = 2 :=
  (daily_reset_iff_later_date config 2 stLoss 2).1 (by norm_num [stLoss])

/-! ## Claim C3 -/

/-- Rounding to the nearest cent moves a value up by at most half a
cent. -/
theorem round2_le (x : ℚ) : round2 x ≤ x + 1/200 := by
  unfold round2
  have h := abs_sub_round (x * 100)
  rw [abs_le] at h
  have h1 : ((round (x * 100) : ℤ) : ℚ) ≤ x * 100 + 1/2 := by
    linarith [h.1]
  linarith

/-- C3 counterexample: with the program's own configuration and an
available balance of 10.0075 USD, the computed size is 8.01 USD, which
exceeds 80% of the balance (8.006 USD): the final rounding to cents can
round upward past the bound. -/
theorem position_size_bound_counterexample :
    ¬ (calculate_position_size config (4003/400) ≤ (4003/400) * (80/100)) := by
  have hval : calculate_position_size config (4003/400) = 801/100 := by
    show round2 (min (min ((4003 : ℚ)/400 * (1/50) / (2/100)) 1000)
      ((4003 : ℚ)/400 * (80/100))) = 801/100
    have h1 : min (min ((4003 : ℚ)/400 * (1/50) / (2/100)) 1000)
        ((4003 : ℚ)/400 * (80/100)) = 4003/500 := by
      rw [min_def, min_def]
      split_ifs <;> norm_num at *
    rw [h1]
    unfold round2
    rw [round_eq]
    norm_num
  rw [hval]
  norm_num

/-- C3 amended.  For every configuration and available balance, the
position size is deterministic (the computation is a pure function of
its inputs), the value before the final cent-rounding respects both caps
exactly, and the returned size exceeds neither `max_position_size` nor
80% of the balance by more than half a cent — the slack the upward
rounding can introduce. -/
theorem position_size_bounded_within_half_cent (cfg : Config) (b : ℚ) :
    calculate_position_size cfg b = calculate_position_size cfg b ∧
    min (min (b * cfg.risk_per_trade / (2/100)) cfg.max_position_size)
        (b * (80/100)) ≤ cfg.max_position_size ∧
    min (min (b * cfg.risk_per_trade / (2/100)) cfg.max_position_size)
        (b * (80/100)) ≤ b * (80/100) ∧
    calculate_position_size cfg b ≤ cfg.max_position_size + 1/200 ∧
    calculate_position_size cfg b ≤ b * (80/100) + 1/200 := by
  have hpre1 : min (min (b * cfg.risk_per_trade / (2/100)) cfg.max_position_size)
      (b * (80/100)) ≤ cfg.max_position_size :=
    le_trans (min_le_left _ _) (min_le_right _ _)
  have hpre2 : min (min (b * cfg.risk_per_trade / (2/100)) cfg.max_position_size)
      (b * (80/100)) ≤ b * (80/100) := min_le_right _ _
  have hr := round2_le (min (min (b * cfg.risk_per_trade / (2/100))
    cfg.max_position_size) (b * (80/100)))
  have hcalc : calculate_position_size cfg b =
      round2 (min (min (b * cfg.risk_per_trade / (2/100)) cfg.max_position_size)
        (b * (80/100))) := rfl
  exact ⟨rfl, hpre1, hpre2, by rw [hcalc]; linarith, by rw [hcalc]; linarith⟩

/-! ## Claim C4 -/

/-- The Scenario A snapshot: venue `A` quotes bid 1.1998 / ask 1.2000,
venue `B` quotes bid 1.2008 / ask 1.2010. -/
def scenarioA : List (String × Ticker) :=
  [("A", { bid := 5999/5000, ask := 6/5, last := 0, volume := 0 }),
   ("B", { bid := 1501/1250, ask := 1201/1000, last := 0, volume := 0 })]

/-- C4 counterexample: at the program's configured minimum profit
threshold (0.001, i.e. 0.1%), the detector returns no opportunity at all
for Scenario A — the buy-`A`/sell-`B` spread of 1/15 % ≈ 0.0667% is below
the 0.1% floor, so the claimed single opportunity is not emitted. -/
theorem scenarioA_counterexample :
    find_arbitrage_opportunities "EUR/USD" config.min_profit_threshold
      scenarioA = [] := by
  norm_num [find_arbitrage_opportunities, get_best_prices, scenarioA, oppsFor,
    checkPair, toBestPrice, mkOpportunity, bestPriceGetVolume, config]

/-- The single opportunity Scenario A yields once the threshold is low
enough: buy `A` at 1.2000, sell `B` at 1.2008, spread 1/15 % ≈ 0.0667%. -/
def scenarioA_opp : Opportunity :=
  { symbol := "EUR/USD", buy_exchange := "A", sell_exchange := "B",
    buy_price := 6/5, sell_price := 1501/1250, profit := 1/1250,
    profit_percentage := 1/15, volume := 0 }

/-- C4 amended.  On Scenario A the detector emits nothing at the
configured 0.1% threshold; with a threshold of 1/1500 (= 0.0667%, the
scenario's own spread) it emits exactly one opportunity, buying on `A`
and selling on `B`, with spread percentage exactly 1/15 % ≈ 0.0667%. -/
theorem scenarioA_detection :
    find_arbitrage_opportunities "EUR/USD" config.min_profit_threshold
        scenarioA = [] ∧
    find_arbitrage_opportunities "EUR/USD" (1/1500) scenarioA =
        [scenarioA_opp] ∧
    scenarioA_opp.profit_percentage = 1/15 := by
  refine ⟨?_, ?_, rfl⟩ <;>
    norm_num [find_arbitrage_opportunities, get_best_prices, scenarioA,
      oppsFor, checkPair, toBestPrice, mkOpportunity, bestPriceGetVolume,
      config, scenarioA_opp, Opportunity.mk.injEq]

/-! ## Claim C5 -/

/-- C5.  On a qualifying snapshot whose tickers report volumes 3 and 4,
the emitted opportunity's volume field is 0, not `min 3 4 = 3`: the
best-price dictionaries built by `get_best_prices` carry no `volume` key,
so `price.get('volume', 0)` always falls back to 0.  The spec's
`estVolume = min(X.volume, Y.volume)` is the evident intent of the
`min(price1.get('volume', 0), price2.get('volume', 0))` expression, which
the code defeats by dropping the volume field one step earlier. -/
theorem opportunity_volume_always_zero :
    (find_arbitrage_opportunities "EUR/USD" config.min_profit_threshold
        wSnapshot).map Opportunity.volume = [0] ∧
    min wTickerA.volume wTickerB.volume = 3 ∧
    (0 : ℚ) ≠ 3 := by
  refine ⟨?_, by norm_num [wTickerA, wTickerB], by norm_num⟩
  norm_num [find_arbitrage_opportunities, get_best_prices, wSnapshot, oppsFor,
    checkPair, toBestPrice, mkOpportunity, bestPriceGetVolume, config,
    wTickerA, wTickerB]

/-! ## Claim C8 -/

/-- C8.  When the buy order is placed but its status poll does not report
it `closed` within the deadline, the coordinator cancels the buy order,
reaches the buy-leg failure outcome (the `return` after the cancel — the
trade's `FAILED` terminal state), never issues a sell-side order
placement, and leaves the risk state untouched, so a fresh trade id is
absent from the active-trade list afterwards exactly as it was before. -/
theorem buy_timeout_failed_no_sell (cfg : Config) (env : ExecEnv)
    (opp : Opportunity) (risk : RiskState) (tid oid : String)
    (hplaced : env.buy_order = some oid) (hnofill : ¬ buyFilled env)
    (hfresh : ∀ t ∈ risk.active_trades, t.trade_id ≠ tid) :
    (execute_arbitrage cfg env opp risk).outcome = ExecOutcome.buyNotFilled ∧
    VenueCall.cancelOrder opp.buy_exchange oid ∈
      (execute_arbitrage cfg env opp risk).calls ∧
    (∀ ex amt, VenueCall.placeOrder ex "sell" amt ∉
      (execute_arbitrage cfg env opp risk).calls) ∧
    (execute_arbitrage cfg env opp risk).risk = risk ∧
    (∀ t ∈ (execute_arbitrage cfg env opp risk).risk.active_trades,
      t.trade_id ≠ tid) := by
  have hsc : statusClosed env.buy_status = false := by
    rcases henv : env.buy_status with _ | st
    · rfl
    · simp only [statusClosed, beq_eq_false_iff_ne]
      intro hcl
      exact hnofill ⟨st, henv, hcl⟩
  have hres : execute_arbitrage cfg env opp risk =
      ⟨ExecOutcome.buyNotFilled,
        [VenueCall.placeOrder opp.buy_exchange "buy"
           (calculate_position_size cfg get_available_balance),
         VenueCall.getOrderStatus opp.buy_exchange oid,
         VenueCall.cancelOrder opp.buy_exchange oid], risk⟩ := by
    simp only [execute_arbitrage, hplaced, hsc]
    rfl
  rw [hres]
  refine ⟨rfl, by simp, ?_, rfl, hfresh⟩
  intro ex amt
  simp only [List.mem_cons, List.not_mem_nil, or_false]
  rintro (h | h | h) <;> simp [VenueCall.placeOrder.injEq] at h

/-- The C8/C9 witness oracle: the buy order is accepted as `"o1"` but its
single status poll reports it still `open`. -/
def envTimeout : ExecEnv :=
  { buy_order := some "o1", buy_status := some { status := "open", price := 0 },
    sell_order := none, sell_status := none, buy_fee := 0, sell_fee := 0 }

/-- A concrete opportunity driven through the coordinator. -/
def oppTrade : Opportunity :=
  { symbol := "EUR/USD", buy_exchange := "binance", sell_exchange := "kraken",
    buy_price := 1, sell_price := 2, profit := 1, profit_percentage := 2,
    volume := 0 }

/-- A risk state with no active trades. -/
def riskEmpty : RiskState :=
  { daily_loss := 0, daily_trades := 0, active_trades := [],
    max_drawdown := 0, peak_balance := 0, current_balance := 0,
    last_reset := 0 }

/-- C8 witness: with the concrete stuck-`open` oracle, the run ends in
the buy-leg failure outcome and the risk state is untouched. -/
theorem buy_timeout_failed_no_sell_witness :
    (execute_arbitrage config envTimeout oppTrade riskEmpty).outcome =
        ExecOutcome.buyNotFilled ∧
    (execute_arbitrage config envTimeout oppTrade riskEmpty).risk =
        riskEmpty :=
  ⟨(buy_timeout_failed_no_sell config envTimeout oppTrade riskEmpty "t1" "o1"
      rfl
      (by rintro ⟨st, hst, hcl⟩
          injection hst with h
          subst h
          exact absurd hcl (by decide))
      (by simp [riskEmpty])).1,
   (buy_timeout_failed_no_sell config envTimeout oppTrade riskEmpty "t1" "o1"
      rfl
      (by rintro ⟨st, hst, hcl⟩
          injection hst with h
          subst h
          exact absurd hcl (by decide))
      (by simp [riskEmpty])).2.2.2.1⟩

/-! ## Claim C9 -/

/-- C9.  `_execute_arbitrage` returns the risk state exactly as it
received it on every path — it never calls `add_active_trade`, so no
trade id is ever registered in the active-trade list, neither before the
first venue call nor at any later point — while its very first external
action is already the buy-side order placement. -/
theorem execute_never_registers_trade (cfg : Config) (env : ExecEnv)
    (opp : Opportunity) (risk : RiskState) :
    (execute_arbitrage cfg env opp risk).risk = risk ∧
    (execute_arbitrage cfg env opp risk).calls.head? =
      some (VenueCall.placeOrder opp.buy_exchange "buy"
        (calculate_position_size cfg get_available_balance)) := by
  simp only [execute_arbitrage]
  rcases henv : env.buy_order with _ | oid <;> simp only [henv]
  · simp
  · rcases hsell : env.sell_order with _ | sid <;> simp only [hsell] <;>
      split_ifs <;> simp

end Hft
